import Mathlib

/-!
Shallow embedding of `spam_tasks.rs` from the operator crate.

The Rust program is a periodic loop: every 15 seconds it generates a random
task name, logs it, and calls `create_new_task`, which reads a deployment
JSON file, parses the contract address, resolves the lazily-initialised
`PRIVATE_KEY` environment variable, constructs a signer and a contract
handle, sends a `createNewTask` transaction and awaits its receipt, printing
the transaction hash on success.  The scheduler discards the result of each
attempt (`let _ = create_new_task(..)`).

External collaborators (the filesystem, serde_json, address parsing, the
environment, signer parsing, and the RPC endpoint) are modelled as fields of
an `Env` record: each is an abstract function returning `Option`, where
`none` is the corresponding failure.  Every observable action of the code is
recorded in an effect trace, so that frame claims (no network I/O before a
config error, what gets logged, how often the env var is read) become
statements about the trace.  A panic of the process (the `expect` on the
lazy `PRIVATE_KEY`) is the `fatal` outcome, which kills the scheduler loop;
ordinary `Result` errors are the `err` outcome, which the loop swallows.
-/

namespace SpamTasks

/-- Fixed adjective list of `generate_random_name` (spam_tasks.rs line 22). -/
def adjectives : List String := ["Quick", "Lazy", "Sleepy", "Noisy", "Hungry"]

/-- Fixed noun list of `generate_random_name` (spam_tasks.rs line 23). -/
def nouns : List String := ["Fox", "Dog", "Cat", "Mouse", "Bear"]

/-- Model of the `rand` call `rng.gen_range(lo..hi)`: consumes one value `r` of the
random source and returns a value in `[lo, hi)`; on an empty range `rand`
panics, modelled by `none`.  A uniformly distributed source residue yields a
uniformly distributed draw. -/
def gen_range (lo hi r : Nat) : Option Nat :=
  if lo < hi then some (lo + r % (hi - lo)) else none

/-- Model of `generate_random_name` (spam_tasks.rs lines 21-32).  The three
`gen_range` calls consume the three source values `r1 r2 r3`; list indexing
is modelled by `getElem?`, where `none` is an out-of-bounds panic. -/
def generate_random_name (r1 r2 r3 : Nat) : Option String := do
  let i ← gen_range 0 adjectives.length r1
  let adjective ← adjectives[i]?
  let j ← gen_range 0 nouns.length r2
  let noun ← nouns[j]?
  let number ← gen_range 0 1000 r3
  pure (adjective ++ noun ++ toString number)

/-- The deployment-metadata path read by `create_new_task` (line 37). -/
def deployment_path : String := "contracts/deployments/trappist/31337.json"

/-- The fixed RPC endpoint (spam_tasks.rs line 13). -/
def ANVIL_RPC_URL : String := "http://localhost:8545"

/-- The interval of the scheduler loop, `Duration::from_secs(15)` (line 63). -/
def tick_interval_secs : Nat := 15

/-- The nested `addresses` structure of the deployment file (from the
`trappistData` serde type of `trappist_utils`). -/
structure Addresses where
  trappist_service_manager : String
  deriving DecidableEq, Repr

/-- The `trappistData` deployment-metadata document. -/
structure trappistData where
  addresses : Addresses
  deriving DecidableEq, Repr

/-- Observable effects of one run of the program. -/
inductive Effect
  /-- Reading the deployment file via `std::fs::read_to_string` (line 37). -/
  | readFile
  /-- Reading the `PRIVATE_KEY` environment variable, performed by the first
  forcing of `KEY`. -/
  | readEnvVar
  /-- A dereference (`KEY.clone()`) of the lazy static. -/
  | derefKey
  /-- Construction of the signing provider by `get_signer(..)` (line 41). -/
  | constructSigner
  /-- Construction of the contract handle at `addr` (line 43). -/
  | constructContract (addr : String)
  /-- Broadcast of the `createNewTask` call to the RPC endpoint (lines 45-48). -/
  | sendTx (addr : String) (name : String)
  /-- Awaiting confirmation of the transaction (lines 49-50). -/
  | awaitReceipt
  /-- The `get_logger().info` line announcing the new task name (lines 68-71). -/
  | logName (name : String)
  /-- The `println!` of the transaction hash on success (lines 52-55). -/
  | logTxHash (hash : String)
  /-- One value produced by `generate_random_name` in the loop (line 67). -/
  | genName (name : String)
  /-- One invocation of `create_new_task` by the loop (line 72). -/
  | invokeSubmit (name : String)
  deriving DecidableEq, Repr

/-- The error taxonomy of a `create_new_task` attempt (spec section 7):
the three config failures, a malformed-credential failure
(`PrivateKeySigner::from_str`), a broadcast failure and a confirmation
failure. -/
inductive SubmitError
  | configFile
  | configJson
  | configAddr
  | credential
  | submission
  | confirmation
  deriving DecidableEq, Repr

/-- The result of one `create_new_task` call: `ok`, an ordinary `Result`
error (propagated by `?` and swallowed by the loop), or a process-killing
panic (the `expect` inside the lazy `KEY`). -/
inductive COutcome
  | ok
  | err (e : SubmitError)
  | fatal
  deriving DecidableEq, Repr

/-- Whether an error belongs to the `ConfigError` class of the spec. -/
def SubmitError.isConfigError : SubmitError → Bool
  | .configFile => true
  | .configJson => true
  | .configAddr => true
  | _ => false

/-- The external world: each collaborator of `create_new_task` as an
abstract function, `none` being its failure. -/
structure Env where
  /-- Result of reading the deployment file; `none` = missing/unreadable. -/
  file : Option String
  /-- Model of `serde_json::from_str`; `none` = malformed JSON. -/
  parseJson : String → Option trappistData
  /-- Model of address parsing; `none` = malformed address. -/
  parseAddress : String → Option String
  /-- The `PRIVATE_KEY` environment variable; `none` = unset. -/
  key : Option String
  /-- Model of signer parsing; `none` = malformed key material. -/
  parseSigner : String → Option Unit
  /-- Model of the broadcast: sends a transaction to `addr` with the task name;
  `none` = network/RPC rejection, `some p` = a pending transaction. -/
  send : String → String → Option Nat
  /-- Model of awaiting the receipt: `none` = confirmation failure, `some h` = a receipt
  with transaction hash `h`. -/
  getReceipt : Nat → Option String

/-- The tail of `create_new_task` after the lazy key has been resolved to
`key` (lines 41-57): `get_signer` (a second `KEY.clone()` follows at line
42), `PrivateKeySigner::from_str`, contract construction, send, receipt,
and the success `println!`. -/
def afterKey (env : Env) (addr key task_name : String) (es : List Effect)
    (cache : Option String) : COutcome × List Effect × Option String :=
  let es1 := es ++ [Effect.constructSigner, Effect.derefKey]
  match env.parseSigner key with
  | none => (.err .credential, es1, cache)
  | some _ =>
    let es2 := es1 ++ [Effect.constructContract addr]
    match env.send addr task_name with
    | none => (.err .submission, es2 ++ [Effect.sendTx addr task_name], cache)
    | some pending =>
      let es3 := es2 ++ [Effect.sendTx addr task_name]
      match env.getReceipt pending with
      | none => (.err .confirmation, es3 ++ [Effect.awaitReceipt], cache)
      | some txhash =>
        (.ok, es3 ++ [Effect.awaitReceipt, Effect.logTxHash txhash], cache)

/-- Model of `create_new_task` (spam_tasks.rs lines 36-58).  `cache` is the
state of the lazy `KEY` static: `some k` once it has been forced.  Returns
the outcome, the effect trace of the call, and the new lazy state. -/
def create_new_task (env : Env) (cache : Option String) (task_name : String) :
    COutcome × List Effect × Option String :=
  match env.file with
  | none => (.err .configFile, [Effect.readFile], cache)
  | some data =>
    match env.parseJson data with
    | none => (.err .configJson, [Effect.readFile], cache)
    | some parsed =>
      match env.parseAddress parsed.addresses.trappist_service_manager with
      | none => (.err .configAddr, [Effect.readFile], cache)
      | some trappist_contract_address =>
        match cache with
        | some k =>
          afterKey env trappist_contract_address k task_name
            [Effect.readFile, Effect.derefKey] (some k)
        | none =>
          match env.key with
          | none => (.fatal, [Effect.readFile, Effect.derefKey, Effect.readEnvVar], none)
          | some k =>
            afterKey env trappist_contract_address k task_name
              [Effect.readFile, Effect.derefKey, Effect.readEnvVar] (some k)

/-- One tick of the scheduler body (spam_tasks.rs lines 66-72): generate a
name, log it, call `create_new_task`, discard its result.  Returns the
effects of the tick, the new lazy-key state, and whether the process is still
alive (a panic kills it). -/
def tickStep (env : Env) (cache : Option String) (r : Nat × Nat × Nat) :
    List Effect × Option String × Bool :=
  match generate_random_name r.1 r.2.1 r.2.2 with
  | none => ([], cache, false)
  | some random_name =>
    match create_new_task env cache random_name with
    | (out, es, cache2) =>
      ([Effect.genName random_name, Effect.logName random_name,
        Effect.invokeSubmit random_name] ++ es,
       cache2,
       match out with
       | .fatal => false
       | _ => true)

/-- State of the process after some number of ticks. -/
structure PState where
  trace : List Effect
  cache : Option String
  alive : Bool
  deriving Repr

/-- State of the process after `n` ticks of the
`start_creating_tasks` loop (lines 62-74), where `rngs k` supplies the
random-source values consumed at tick `k`.  A dead process stays dead. -/
def run (env : Env) (rngs : Nat → Nat × Nat × Nat) : Nat → PState
  | 0 => ⟨[], none, true⟩
  | n + 1 =>
    let s := run env rngs n
    if s.alive then
      match tickStep env s.cache (rngs n) with
      | (es, c, a) => ⟨s.trace ++ es, c, a⟩
    else s

/-- The names carried by `genName` effects of a trace. -/
def genNames (t : List Effect) : List String :=
  t.filterMap fun e =>
    match e with
    | Effect.genName s => some s
    | _ => none

/-- The names carried by `invokeSubmit` effects of a trace. -/
def invokeNames (t : List Effect) : List String :=
  t.filterMap fun e =>
    match e with
    | Effect.invokeSubmit s => some s
    | _ => none

/-- The log lines of a trace: the per-tick name announcement and the
success transaction-hash line. -/
def logLines (t : List Effect) : List Effect :=
  t.filter fun e =>
    match e with
    | Effect.logName _ => true
    | Effect.logTxHash _ => true
    | _ => false

/-- How many times a trace reads the `PRIVATE_KEY` environment variable. -/
def readEnvCount (t : List Effect) : Nat :=
  t.countP fun e =>
    match e with
    | Effect.readEnvVar => true
    | _ => false

/-- How many times a trace reads the deployment file. -/
def readFileCount (t : List Effect) : Nat :=
  t.countP fun e =>
    match e with
    | Effect.readFile => true
    | _ => false

/-- A string of the shape produced by `generate_random_name`: an adjective
of the fixed set, a noun of the fixed set, and the decimal representation
of an integer below 1000, concatenated without separator. -/
def nameFormat (s : String) : Prop :=
  ∃ a b n, a ∈ adjectives ∧ b ∈ nouns ∧ n < 1000 ∧ s = a ++ b ++ toString n

/-- Contents of the deployment file in the concrete test environment. -/
def dataC : String := "deployment-data"

/-- A concrete environment in which every collaborator succeeds: the
deployment file holds `dataC`, it parses to the address `0xA`, the key is
set, the signer parses, the broadcast is accepted and confirmed with
transaction hash `0xhash`. -/
def envC : Env :=
  { file := some dataC
  , parseJson := fun s => if s = dataC then some ⟨⟨ "0xA" ⟩⟩ else none
  , parseAddress := fun s => if s = "0xA" then some "0xA" else none
  , key := some "0xkey"
  , parseSigner := fun _ => some ()
  , send := fun _ _ => some 0
  , getReceipt := fun _ => some "0xhash" }

/-- Variant of `envC` with a missing deployment file. -/
def envNoFile : Env := { envC with file := none }

/-- Variant of `envC` with the `PRIVATE_KEY` environment variable unset. -/
def envNoKey : Env := { envC with key := none }

/-- A constant random source: every tick consumes the values `(0, 0, 0)`. -/
def rngsC : Nat → Nat × Nat × Nat := fun _ => (0, 0, 0)

lemma adjectives_length : adjectives.length = 5 := rfl

lemma nouns_length : nouns.length = 5 := rfl

/-- Closed form of `generate_random_name`: it always succeeds, selecting
the adjective at index `r1 % 5`, the noun at index `r2 % 5`, and the
number `r3 % 1000`. -/
lemma generate_random_name_eq (r1 r2 r3 : Nat) :
    generate_random_name r1 r2 r3 =
      some (adjectives.getD (r1 % 5) "" ++ nouns.getD (r2 % 5) "" ++
        toString (r3 % 1000)) := by
  have h1 : r1 % 5 = 0 ∨ r1 % 5 = 1 ∨ r1 % 5 = 2 ∨ r1 % 5 = 3 ∨ r1 % 5 = 4 := by
    omega
  have h2 : r2 % 5 = 0 ∨ r2 % 5 = 1 ∨ r2 % 5 = 2 ∨ r2 % 5 = 3 ∨ r2 % 5 = 4 := by
    omega
  rcases h1 with h1 | h1 | h1 | h1 | h1 <;> rcases h2 with h2 | h2 | h2 | h2 | h2 <;>
    simp [generate_random_name, gen_range, adjectives, nouns, h1, h2]

lemma getD_adjectives_mem (i : Nat) (h : i < 5) : adjectives.getD i "" ∈ adjectives := by
  interval_cases i <;> decide

lemma getD_nouns_mem (i : Nat) (h : i < 5) : nouns.getD i "" ∈ nouns := by
  interval_cases i <;> decide

/-- Every value produced by `generate_random_name` has the
adjective-noun-number shape. -/
lemma generate_random_name_format (r1 r2 r3 : Nat) (s : String)
    (h : generate_random_name r1 r2 r3 = some s) : nameFormat s := by
  rw [generate_random_name_eq] at h
  obtain rfl : s = _ := (Option.some_inj.mp h).symm
  exact ⟨_, _, _, getD_adjectives_mem _ (Nat.mod_lt _ (by norm_num)),
    getD_nouns_mem _ (Nat.mod_lt _ (by norm_num)),
    Nat.mod_lt _ (by norm_num), rfl⟩

lemma mem_adjectives_iff (a : String) :
    a ∈ adjectives ↔ ∃ i, i < 5 ∧ adjectives.getD i "" = a := by
  constructor
  · intro ha
    fin_cases ha
    · exact ⟨0, by norm_num, by decide⟩
    · exact ⟨1, by norm_num, by decide⟩
    · exact ⟨2, by norm_num, by decide⟩
    · exact ⟨3, by norm_num, by decide⟩
    · exact ⟨4, by norm_num, by decide⟩
  · rintro ⟨i, hi, rfl⟩
    exact getD_adjectives_mem i hi

lemma mem_nouns_iff (b : String) :
    b ∈ nouns ↔ ∃ i, i < 5 ∧ nouns.getD i "" = b := by
  constructor
  · intro hb
    fin_cases hb
    · exact ⟨0, by norm_num, by decide⟩
    · exact ⟨1, by norm_num, by decide⟩
    · exact ⟨2, by norm_num, by decide⟩
    · exact ⟨3, by norm_num, by decide⟩
    · exact ⟨4, by norm_num, by decide⟩
  · rintro ⟨i, hi, rfl⟩
    exact getD_nouns_mem i hi

/-- Every adjective-noun-number combination is reachable: the source values
`(i, j, n)` produce exactly that name. -/
lemma generate_random_name_reach (a b : String) (n : Nat)
    (ha : a ∈ adjectives) (hb : b ∈ nouns) (hn : n < 1000) :
    ∃ r1 r2 r3, generate_random_name r1 r2 r3 = some (a ++ b ++ toString n) := by
  obtain ⟨i, hi, hia⟩ := (mem_adjectives_iff a).mp ha
  obtain ⟨j, hj, hjb⟩ := (mem_nouns_iff b).mp hb
  refine ⟨i, j, n, ?_⟩
  rw [generate_random_name_eq, Nat.mod_eq_of_lt hi, Nat.mod_eq_of_lt hj,
    Nat.mod_eq_of_lt hn, hia, hjb]

/-- Exhaustive result shapes of `afterKey`: a credential error, a broadcast
error, a confirmation error, or success with some transaction hash. -/
lemma afterKey_shape (env : Env) (addr k name : String) (pre : List Effect)
    (cache : Option String) :
    afterKey env addr k name pre cache =
      (.err .credential, pre ++ [Effect.constructSigner, Effect.derefKey], cache) ∨
    afterKey env addr k name pre cache =
      (.err .submission,
        pre ++ [Effect.constructSigner, Effect.derefKey,
          Effect.constructContract addr, Effect.sendTx addr name], cache) ∨
    afterKey env addr k name pre cache =
      (.err .confirmation,
        pre ++ [Effect.constructSigner, Effect.derefKey,
          Effect.constructContract addr, Effect.sendTx addr name,
          Effect.awaitReceipt], cache) ∨
    ∃ h, afterKey env addr k name pre cache =
      (.ok,
        pre ++ [Effect.constructSigner, Effect.derefKey,
          Effect.constructContract addr, Effect.sendTx addr name,
          Effect.awaitReceipt, Effect.logTxHash h], cache) := by
  unfold afterKey
  cases hs : env.parseSigner k with
  | none => left; simp [hs]
  | some u =>
    cases hd : env.send addr name with
    | none => right; left; simp [hs, hd]
    | some p =>
      cases hr : env.getReceipt p with
      | none => right; right; left; simp [hs, hd, hr]
      | some h => right; right; right; exact ⟨h, by simp [hs, hd, hr]⟩

/-- Exhaustive result shapes of `create_new_task`: a config error that only
reads the file, the fatal key panic, or a hand-off to `afterKey` with the
resolved key and the parsed address. -/
lemma cnt_shape (env : Env) (cache : Option String) (name : String) :
    (∃ e, SubmitError.isConfigError e = true ∧
       create_new_task env cache name = (.err e, [Effect.readFile], cache)) ∨
    (cache = none ∧ env.key = none ∧
       create_new_task env cache name =
         (.fatal, [Effect.readFile, Effect.derefKey, Effect.readEnvVar], none)) ∨
    (∃ k pre addr,
       ((cache = some k ∧ pre = [Effect.readFile, Effect.derefKey]) ∨
        (cache = none ∧ env.key = some k ∧
           pre = [Effect.readFile, Effect.derefKey, Effect.readEnvVar])) ∧
       (∃ d p, env.file = some d ∧ env.parseJson d = some p ∧
          env.parseAddress p.addresses.trappist_service_manager = some addr) ∧
       create_new_task env cache name = afterKey env addr k name pre (some k)) := by
  cases hf : env.file with
  | none => exact Or.inl ⟨.configFile, rfl, by simp [create_new_task, hf]⟩
  | some d =>
    cases hj : env.parseJson d with
    | none => exact Or.inl ⟨.configJson, rfl, by simp [create_new_task, hf, hj]⟩
    | some p =>
      cases ha : env.parseAddress p.addresses.trappist_service_manager with
      | none => exact Or.inl ⟨.configAddr, rfl, by simp [create_new_task, hf, hj, ha]⟩
      | some addr =>
        cases hc : cache with
        | some k =>
          refine Or.inr (Or.inr ⟨k, _, addr, Or.inl ⟨rfl, rfl⟩, ⟨d, p, rfl, hj, ha⟩, ?_⟩)
          simp [create_new_task, hf, hj, ha]
        | none =>
          cases hk : env.key with
          | none =>
            refine Or.inr (Or.inl ⟨rfl, rfl, ?_⟩)
            simp [create_new_task, hf, hj, ha, hk]
          | some k =>
            refine Or.inr (Or.inr ⟨k, _, addr, Or.inr ⟨rfl, rfl, rfl⟩, ⟨d, p, rfl, hj, ha⟩, ?_⟩)
            simp [create_new_task, hf, hj, ha, hk]


lemma genNames_append (a b : List Effect) :
    genNames (a ++ b) = genNames a ++ genNames b := by
  simp [genNames]

lemma invokeNames_append (a b : List Effect) :
    invokeNames (a ++ b) = invokeNames a ++ invokeNames b := by
  simp [invokeNames]

lemma logLines_append (a b : List Effect) :
    logLines (a ++ b) = logLines a ++ logLines b := by
  simp [logLines]

lemma readEnvCount_append (a b : List Effect) :
    readEnvCount (a ++ b) = readEnvCount a + readEnvCount b := by
  simp [readEnvCount]

lemma readFileCount_append (a b : List Effect) :
    readFileCount (a ++ b) = readFileCount a + readFileCount b := by
  simp [readFileCount]

lemma cnt_fatal_key (env : Env) (cache : Option String) (name : String)
    (h : (create_new_task env cache name).1 = COutcome.fatal) :
    cache = none ∧ env.key = none := by
  rcases cnt_shape env cache name with ⟨e, _, hq⟩ | ⟨h1, h2, hq⟩ | ⟨k, pre, addr, _, _, hq⟩
  · rw [hq] at h; simp at h
  · exact ⟨h1, h2⟩
  · rcases afterKey_shape env addr k name pre (some k) with h4 | h4 | h4 | ⟨hh, h4⟩ <;>
      rw [hq, h4] at h <;> simp at h

lemma cnt_no_names (env : Env) (cache : Option String) (name : String) :
    genNames (create_new_task env cache name).2.1 = [] ∧
    invokeNames (create_new_task env cache name).2.1 = [] := by
  rcases cnt_shape env cache name with ⟨e, _, hq⟩ | ⟨_, _, hq⟩ | ⟨k, pre, addr, hpre, _, hq⟩
  · rw [hq]; exact ⟨rfl, rfl⟩
  · rw [hq]; exact ⟨rfl, rfl⟩
  · rcases hpre with ⟨hc, rfl⟩ | ⟨hc, hk, rfl⟩ <;>
      rcases afterKey_shape env addr k name _ (some k) with h4 | h4 | h4 | ⟨hh, h4⟩ <;>
        rw [hq, h4] <;> exact ⟨rfl, rfl⟩

lemma cnt_readFile (env : Env) (cache : Option String) (name : String) :
    readFileCount (create_new_task env cache name).2.1 = 1 := by
  rcases cnt_shape env cache name with ⟨e, _, hq⟩ | ⟨_, _, hq⟩ | ⟨k, pre, addr, hpre, _, hq⟩
  · rw [hq]; rfl
  · rw [hq]; rfl
  · rcases hpre with ⟨hc, rfl⟩ | ⟨hc, hk, rfl⟩ <;>
      rcases afterKey_shape env addr k name _ (some k) with h4 | h4 | h4 | ⟨hh, h4⟩ <;>
        rw [hq, h4] <;> rfl

lemma cnt_readEnv_shape (env : Env) (cache : Option String) (name : String) :
    (readEnvCount (create_new_task env cache name).2.1 = 0 ∧
      (create_new_task env cache name).2.2 = cache) ∨
    (cache = none ∧ readEnvCount (create_new_task env cache name).2.1 = 1 ∧
      (((create_new_task env cache name).1 = COutcome.fatal ∧
         (create_new_task env cache name).2.2 = none ∧ env.key = none) ∨
       (∃ k, env.key = some k ∧ (create_new_task env cache name).2.2 = some k))) := by
  rcases cnt_shape env cache name with ⟨e, _, hq⟩ | ⟨h1, h2, hq⟩ | ⟨k, pre, addr, hpre, _, hq⟩
  · left; rw [hq]; exact ⟨rfl, rfl⟩
  · right; rw [hq]; exact ⟨h1, rfl, Or.inl ⟨rfl, rfl, h2⟩⟩
  · rcases hpre with ⟨hc, rfl⟩ | ⟨hc, hk, rfl⟩
    · left
      rcases afterKey_shape env addr k name _ (some k) with h4 | h4 | h4 | ⟨hh, h4⟩ <;>
        rw [hq, h4] <;> exact ⟨rfl, hc.symm⟩
    · right
      subst hc
      rcases afterKey_shape env addr k name _ (some k) with h4 | h4 | h4 | ⟨hh, h4⟩ <;>
        rw [hq, h4] <;> exact ⟨rfl, rfl, Or.inr ⟨k, hk, rfl⟩⟩

lemma tickStep_eq (env : Env) (cache : Option String) (r : Nat × Nat × Nat) :
    ∃ name, generate_random_name r.1 r.2.1 r.2.2 = some name ∧ nameFormat name ∧
      tickStep env cache r =
        ([Effect.genName name, Effect.logName name, Effect.invokeSubmit name] ++
           (create_new_task env cache name).2.1,
         (create_new_task env cache name).2.2,
         if (create_new_task env cache name).1 = COutcome.fatal then false else true) := by
  obtain ⟨name, hn⟩ : ∃ s, generate_random_name r.1 r.2.1 r.2.2 = some s :=
    ⟨_, generate_random_name_eq _ _ _⟩
  refine ⟨name, hn, generate_random_name_format _ _ _ _ hn, ?_⟩
  unfold tickStep
  rw [hn]
  rcases hc : create_new_task env cache name with ⟨out, es, c2⟩
  cases out <;> simp [hc]

lemma run_succ_of_alive (env : Env) (rngs : Nat → Nat × Nat × Nat) (n : Nat)
    (h : (run env rngs n).alive = true) :
    run env rngs (n + 1) =
      ⟨(run env rngs n).trace ++ (tickStep env (run env rngs n).cache (rngs n)).1,
       (tickStep env (run env rngs n).cache (rngs n)).2.1,
       (tickStep env (run env rngs n).cache (rngs n)).2.2⟩ := by
  rcases ht : tickStep env (run env rngs n).cache (rngs n) with ⟨es, c, a⟩
  simp [run, h, ht]

lemma run_succ_of_dead (env : Env) (rngs : Nat → Nat × Nat × Nat) (n : Nat)
    (h : (run env rngs n).alive = false) :
    run env rngs (n + 1) = run env rngs n := by
  simp [run, h]


lemma run_inv (env : Env) (rngs : Nat → Nat × Nat × Nat) (n : Nat) :
    readEnvCount (run env rngs n).trace ≤ 1 ∧
    ((run env rngs n).alive = true →
      readEnvCount (run env rngs n).trace =
        (if (run env rngs n).cache.isSome then 1 else 0)) ∧
    (∀ k, (run env rngs n).cache = some k → env.key = some k) ∧
    ((run env rngs n).alive = true → readFileCount (run env rngs n).trace = n) := by
  induction n with
  | zero =>
    refine ⟨by simp [run, readEnvCount], fun _ => by simp [run, readEnvCount], ?_, fun _ => by simp [run, readFileCount]⟩
    intro k hk
    simp [run] at hk
  | succ n ih =>
    obtain ⟨ih1, ih2, ih3, ih4⟩ := ih
    by_cases h : (run env rngs n).alive = true
    · rw [run_succ_of_alive env rngs n h]
      obtain ⟨name, hgen, hfmt, hts⟩ := tickStep_eq env (run env rngs n).cache (rngs n)
      rw [hts]
      have hpre0 : readEnvCount
          [Effect.genName name, Effect.logName name, Effect.invokeSubmit name] = 0 := rfl
      have hpreF : readFileCount
          [Effect.genName name, Effect.logName name, Effect.invokeSubmit name] = 0 := rfl
      have hfile := cnt_readFile env (run env rngs n).cache name
      rcases cnt_readEnv_shape env (run env rngs n).cache name with
        ⟨hz, hcc⟩ | ⟨hcn, h1, hrest⟩
      · refine ⟨?_, fun _ => ?_, ?_, fun _ => ?_⟩
        · simp only [readEnvCount_append, hpre0, hz]
          simpa using ih1
        · simp only [readEnvCount_append, hpre0, hz, hcc]
          simpa using ih2 h
        · intro k hk
          rw [hcc] at hk
          exact ih3 k hk
        · simp only [readFileCount_append, hpreF, hfile, ih4 h]
      · have hold : readEnvCount (run env rngs n).trace = 0 := by
          have := ih2 h
          rw [hcn] at this
          simpa using this
        refine ⟨?_, ?_, ?_, fun _ => ?_⟩
        · simp only [readEnvCount_append, hpre0, h1, hold]
          omega
        · intro halive
          rcases hrest with ⟨hf, hc2, hkn⟩ | ⟨k2, hk2, hc2⟩
          · exfalso
            simp [hf] at halive
          · simp only [readEnvCount_append, hpre0, h1, hold, hc2]
            simp
        · intro k2 hk2
          rcases hrest with ⟨hf, hc2, hkn⟩ | ⟨k3, hk3, hc2⟩
          · rw [hc2] at hk2
            cases hk2
          · rw [hc2] at hk2
            rw [← hk2]
            exact hk3
        · simp only [readFileCount_append, hpreF, hfile, ih4 h]
    · have hd : (run env rngs n).alive = false := by
        cases ha : (run env rngs n).alive
        · rfl
        · exact absurd ha h
      rw [run_succ_of_dead env rngs n hd]
      refine ⟨ih1, ih2, ih3, fun h2 => absurd h2 h⟩

lemma run_key_alive (env : Env) (k : String) (hk : env.key = some k)
    (rngs : Nat → Nat × Nat × Nat) (n : Nat) :
    (run env rngs n).alive = true ∧
    genNames (run env rngs n).trace = invokeNames (run env rngs n).trace ∧
    (genNames (run env rngs n).trace).length = n ∧
    (∀ s ∈ genNames (run env rngs n).trace, nameFormat s) := by
  induction n with
  | zero =>
    refine ⟨rfl, rfl, rfl, ?_⟩
    intro s hs
    simp [run, genNames] at hs
  | succ n ih =>
    obtain ⟨ih1, ih2, ih3, ih4⟩ := ih
    rw [run_succ_of_alive env rngs n ih1]
    obtain ⟨name, hgen, hfmt, hts⟩ := tickStep_eq env (run env rngs n).cache (rngs n)
    rw [hts]
    have hnf : (create_new_task env (run env rngs n).cache name).1 ≠ COutcome.fatal := by
      intro hf
      rw [(cnt_fatal_key _ _ _ hf).2] at hk
      cases hk
    obtain ⟨hg0, hi0⟩ := cnt_no_names env (run env rngs n).cache name
    have hgpre : genNames
        ([Effect.genName name, Effect.logName name, Effect.invokeSubmit name] ++
          (create_new_task env (run env rngs n).cache name).2.1) = [name] := by
      rw [genNames_append, hg0]
      rfl
    have hipre : invokeNames
        ([Effect.genName name, Effect.logName name, Effect.invokeSubmit name] ++
          (create_new_task env (run env rngs n).cache name).2.1) = [name] := by
      rw [invokeNames_append, hi0]
      rfl
    refine ⟨by simp [hnf], ?_, ?_, ?_⟩
    · rw [genNames_append, invokeNames_append, hgpre, hipre, ih2]
    · rw [genNames_append, hgpre, List.length_append, ih3]
      rfl
    · intro s hs
      rw [genNames_append, hgpre] at hs
      rcases List.mem_append.mp hs with hs | hs
      · exact ih4 s hs
      · rw [List.mem_singleton.mp hs]
        exact hfmt


/-- C1: every value of `generate_random_name` is one adjective of the fixed
5-element adjective set, one noun of the fixed 5-element noun set, and the
decimal representation of an integer in `[0, 1000)`, concatenated with no
delimiter; every combination is reachable from some source values; and each
draw equals its own source value reduced modulo the size of its domain, so
the three draws are independent and uniform over their domains whenever the
consumed source values are. -/
theorem claim_C1_name_generation :
    (∀ r1 r2 r3 s, generate_random_name r1 r2 r3 = some s → nameFormat s) ∧
    (∀ a b n, a ∈ adjectives → b ∈ nouns → n < 1000 →
       ∃ r1 r2 r3, generate_random_name r1 r2 r3 = some (a ++ b ++ toString n)) ∧
    (∀ k r, 0 < k → gen_range 0 k r = some (r % k)) ∧
    adjectives.length = 5 ∧ nouns.length = 5 ∧ adjectives.Nodup ∧ nouns.Nodup := by
  refine ⟨fun r1 r2 r3 s h => generate_random_name_format r1 r2 r3 s h,
    fun a b n ha hb hn => generate_random_name_reach a b n ha hb hn,
    fun k r hk => by simp [gen_range, hk],
    rfl, rfl, by decide, by decide⟩

/-- Witness for C1: the source values `(1, 2, 3)` produce `LazyCat3`. -/
theorem claim_C1_witness :
    ("Lazy" ∈ adjectives ∧ "Cat" ∈ nouns ∧ 3 < 1000) ∧
    (∃ r1 r2 r3, generate_random_name r1 r2 r3 = some ("Lazy" ++ "Cat" ++ toString 3)) :=
  ⟨⟨by decide, by decide, by decide⟩,
   claim_C1_name_generation.2.1 "Lazy" "Cat" 3 (by decide) (by decide) (by decide)⟩

/-- C9: `generate_random_name` is total — for every state of the random
source both indexings are in bounds and it returns a string (never the
panic value `none`). -/
theorem claim_C9_total (r1 r2 r3 : Nat) :
    ∃ s, generate_random_name r1 r2 r3 = some s :=
  ⟨_, generate_random_name_eq r1 r2 r3⟩

/-- C3: when the deployment file is missing or unreadable,
`create_new_task` fails with the config error, its whole trace is the
single file read — no broadcast, no receipt await, no signer and no
contract construction — and the lazy key state is untouched. -/
theorem claim_C3_missing_file (env : Env) (cache : Option String) (name : String)
    (h : env.file = none) :
    create_new_task env cache name =
      (COutcome.err SubmitError.configFile, [Effect.readFile], cache) ∧
    SubmitError.isConfigError SubmitError.configFile = true ∧
    (∀ a s, Effect.sendTx a s ∉ (create_new_task env cache name).2.1) ∧
    Effect.awaitReceipt ∉ (create_new_task env cache name).2.1 ∧
    Effect.constructSigner ∉ (create_new_task env cache name).2.1 ∧
    (∀ a, Effect.constructContract a ∉ (create_new_task env cache name).2.1) := by
  have hq : create_new_task env cache name =
      (COutcome.err SubmitError.configFile, [Effect.readFile], cache) := by
    simp [create_new_task, h]
  refine ⟨hq, rfl, ?_, ?_, ?_, ?_⟩ <;> simp [hq]

/-- Witness for C3 in the concrete no-file environment. -/
theorem claim_C3_witness :
    envNoFile.file = none ∧
    create_new_task envNoFile none "QuickFox0" =
      (COutcome.err SubmitError.configFile, [Effect.readFile], none) :=
  ⟨rfl, (claim_C3_missing_file envNoFile none "QuickFox0" rfl).1⟩

/-- C10: on any configuration-phase failure (file unreadable, JSON
malformed, or address unparseable) the lazy `PRIVATE_KEY` value is never
dereferenced, the environment variable is not read, and no signer or
contract is constructed before the error is returned. -/
theorem claim_C10_config_failure_frame (env : Env) (cache : Option String)
    (name : String)
    (h : env.file = none ∨
         (∃ d, env.file = some d ∧ env.parseJson d = none) ∨
         (∃ d p, env.file = some d ∧ env.parseJson d = some p ∧
            env.parseAddress p.addresses.trappist_service_manager = none)) :
    (∃ e, SubmitError.isConfigError e = true ∧
       create_new_task env cache name = (COutcome.err e, [Effect.readFile], cache)) ∧
    Effect.derefKey ∉ (create_new_task env cache name).2.1 ∧
    Effect.readEnvVar ∉ (create_new_task env cache name).2.1 ∧
    Effect.constructSigner ∉ (create_new_task env cache name).2.1 ∧
    (∀ a, Effect.constructContract a ∉ (create_new_task env cache name).2.1) ∧
    (create_new_task env cache name).2.2 = cache := by
  have hq : ∃ e, SubmitError.isConfigError e = true ∧
      create_new_task env cache name = (COutcome.err e, [Effect.readFile], cache) := by
    rcases h with h | ⟨d, hd, hj⟩ | ⟨d, p, hd, hj, ha⟩
    · exact ⟨.configFile, rfl, by simp [create_new_task, h]⟩
    · exact ⟨.configJson, rfl, by simp [create_new_task, hd, hj]⟩
    · exact ⟨.configAddr, rfl, by simp [create_new_task, hd, hj, ha]⟩
  obtain ⟨e, he, hq2⟩ := hq
  refine ⟨⟨e, he, hq2⟩, ?_, ?_, ?_, ?_, ?_⟩ <;> simp [hq2]

/-- Variant of `envC` with malformed deployment JSON. -/
def envBadJson : Env := { envC with parseJson := fun _ => none }

/-- Witness for C10 in the concrete malformed-JSON environment. -/
theorem claim_C10_witness :
    (∃ d, envBadJson.file = some d ∧ envBadJson.parseJson d = none) ∧
    Effect.readEnvVar ∉ (create_new_task envBadJson none "QuickFox0").2.1 :=
  ⟨⟨dataC, rfl, rfl⟩,
   (claim_C10_config_failure_frame envBadJson none "QuickFox0"
      (Or.inr (Or.inl ⟨dataC, rfl, rfl⟩))).2.2.1⟩

/-- C6: whenever the deployment file parses and its address field parses to
`a`, every contract construction and every broadcast of the call uses
exactly `a`. -/
theorem claim_C6_address (env : Env) (cache : Option String) (name : String)
    (d : String) (p : trappistData) (a : String)
    (hf : env.file = some d) (hj : env.parseJson d = some p)
    (ha : env.parseAddress p.addresses.trappist_service_manager = some a) :
    (∀ b, Effect.constructContract b ∈ (create_new_task env cache name).2.1 → b = a) ∧
    (∀ b s, Effect.sendTx b s ∈ (create_new_task env cache name).2.1 → b = a) := by
  rcases cnt_shape env cache name with ⟨e, _, hq⟩ | ⟨h1, h2, hq⟩ |
    ⟨k, pre, addr, hpre, ⟨d2, p2, hf2, hj2, ha2⟩, hq⟩
  · rw [hq]
    exact ⟨fun b hb => by simp at hb, fun b s hb => by simp at hb⟩
  · rw [hq]
    exact ⟨fun b hb => by simp at hb, fun b s hb => by simp at hb⟩
  · rw [hf] at hf2
    obtain rfl : d = d2 := Option.some_inj.mp hf2
    rw [hj] at hj2
    obtain rfl : p = p2 := Option.some_inj.mp hj2
    rw [ha] at ha2
    obtain rfl : a = addr := Option.some_inj.mp ha2
    rcases hpre with ⟨hc, rfl⟩ | ⟨hc, hk, rfl⟩
    · rcases afterKey_shape env a k name [Effect.readFile, Effect.derefKey] (some k) with
        h4 | h4 | h4 | ⟨hh, h4⟩ <;> rw [hq, h4] <;>
          exact ⟨fun b hb => by simp_all, fun b s hb => by simp_all⟩
    · rcases afterKey_shape env a k name
        [Effect.readFile, Effect.derefKey, Effect.readEnvVar] (some k) with
        h4 | h4 | h4 | ⟨hh, h4⟩ <;> rw [hq, h4] <;>
          exact ⟨fun b hb => by simp_all, fun b s hb => by simp_all⟩

/-- Witness for C6 in the concrete environment: any broadcast address must
be the one parsed from the file. -/
theorem claim_C6_witness :
    envC.file = some dataC ∧
    (Effect.sendTx "0xB" "QuickFox0" ∈ (create_new_task envC none "QuickFox0").2.1 →
      "0xB" = "0xA") :=
  ⟨rfl, (claim_C6_address envC none "QuickFox0" dataC ⟨⟨ "0xA" ⟩⟩ "0xA" rfl (by decide)
     (by decide)).2 "0xB" "QuickFox0"⟩


lemma cnt_logs (env : Env) (cache : Option String) (name : String) :
    ((create_new_task env cache name).1 = COutcome.ok →
       ∃ h, logLines (create_new_task env cache name).2.1 = [Effect.logTxHash h]) ∧
    ((create_new_task env cache name).1 ≠ COutcome.ok →
       logLines (create_new_task env cache name).2.1 = []) := by
  rcases cnt_shape env cache name with ⟨e, _, hq⟩ | ⟨_, _, hq⟩ |
    ⟨k, pre, addr, hpre, _, hq⟩
  · rw [hq]
    exact ⟨fun hok => by simp at hok, fun _ => rfl⟩
  · rw [hq]
    exact ⟨fun hok => by simp at hok, fun _ => rfl⟩
  · have hp : logLines pre = [] := by
      rcases hpre with ⟨_, rfl⟩ | ⟨_, _, rfl⟩ <;> rfl
    rcases afterKey_shape env addr k name pre (some k) with h4 | h4 | h4 | ⟨hh, h4⟩ <;>
      rw [hq, h4] <;> constructor <;> intro hx
    · exfalso
      simp at hx
    · rw [logLines_append, hp]
      rfl
    · exfalso
      simp at hx
    · rw [logLines_append, hp]
      rfl
    · exfalso
      simp at hx
    · rw [logLines_append, hp]
      rfl
    · exact ⟨hh, by rw [logLines_append, hp]; rfl⟩
    · exact absurd rfl hx

/-- C7: the log output of a tick is exactly one line announcing the freshly
generated task name, followed — only when the submission succeeds — by one
line carrying the transaction hash; a failed submission logs nothing. -/
theorem claim_C7_log_output (env : Env) (cache : Option String)
    (r : Nat × Nat × Nat) (name : String)
    (hgen : generate_random_name r.1 r.2.1 r.2.2 = some name) :
    logLines (tickStep env cache r).1 =
      Effect.logName name :: logLines (create_new_task env cache name).2.1 ∧
    ((create_new_task env cache name).1 = COutcome.ok →
       ∃ h, logLines (create_new_task env cache name).2.1 = [Effect.logTxHash h]) ∧
    ((create_new_task env cache name).1 ≠ COutcome.ok →
       logLines (create_new_task env cache name).2.1 = []) := by
  obtain ⟨name2, hg2, _, hts⟩ := tickStep_eq env cache r
  obtain rfl : name = name2 := by rw [hgen] at hg2; exact Option.some_inj.mp hg2
  exact ⟨by rw [hts]; rfl, (cnt_logs env cache name).1, (cnt_logs env cache name).2⟩

/-- Witness for C7 in the concrete environment: the successful tick logs
the name line and then the transaction-hash line. -/
theorem claim_C7_witness :
    generate_random_name 0 0 0 = some "QuickFox0" ∧
    logLines (tickStep envC none (0, 0, 0)).1 =
      Effect.logName "QuickFox0" :: logLines (create_new_task envC none "QuickFox0").2.1 ∧
    ((create_new_task envC none "QuickFox0").1 = COutcome.ok →
      ∃ h, logLines (create_new_task envC none "QuickFox0").2.1 = [Effect.logTxHash h]) :=
  ⟨by decide, (claim_C7_log_output envC none (0, 0, 0) "QuickFox0" (by decide)).1,
   (claim_C7_log_output envC none (0, 0, 0) "QuickFox0" (by decide)).2.1⟩

/-- C4: if the submission attempt of tick `n` resolves (success or any
ordinary error, i.e. not the key panic), the loop stays alive, and the
following tick again generates a fresh name and attempts a submission with
it. -/
theorem claim_C4_loop_never_halts (env : Env) (rngs : Nat → Nat × Nat × Nat)
    (n : Nat) (halive : (run env rngs n).alive = true)
    (hout : ∀ name,
       generate_random_name (rngs n).1 (rngs n).2.1 (rngs n).2.2 = some name →
       (create_new_task env (run env rngs n).cache name).1 ≠ COutcome.fatal) :
    (run env rngs (n + 1)).alive = true ∧
    (∃ name es, (run env rngs (n + 2)).trace = (run env rngs (n + 1)).trace ++ es ∧
       Effect.genName name ∈ es ∧ Effect.invokeSubmit name ∈ es) := by
  obtain ⟨name, hgen, _, hts⟩ := tickStep_eq env (run env rngs n).cache (rngs n)
  have h1 : (run env rngs (n + 1)).alive = true := by
    rw [run_succ_of_alive env rngs n halive, hts]
    simp [hout name hgen]
  refine ⟨h1, ?_⟩
  obtain ⟨name2, hgen2, _, hts2⟩ := tickStep_eq env (run env rngs (n + 1)).cache (rngs (n + 1))
  refine ⟨name2, (tickStep env (run env rngs (n + 1)).cache (rngs (n + 1))).1, ?_, ?_, ?_⟩
  · rw [run_succ_of_alive env rngs (n + 1) h1]
  · rw [hts2]
    simp
  · rw [hts2]
    simp

/-- Witness for C4 at the concrete environment, tick 0. -/
theorem claim_C4_witness :
    (run envC rngsC 0).alive = true ∧
    (run envC rngsC 1).alive = true ∧
    (∃ name es, (run envC rngsC 2).trace = (run envC rngsC 1).trace ++ es ∧
       Effect.genName name ∈ es ∧ Effect.invokeSubmit name ∈ es) := by
  have h := claim_C4_loop_never_halts envC rngsC 0 (by decide) (fun name h => by
    have h2 : some "QuickFox0" = some name := h
    obtain rfl : "QuickFox0" = name := Option.some_inj.mp h2
    decide)
  exact ⟨by decide, h.1, h.2⟩

/-- C5: an unset `PRIVATE_KEY` is fatal — once the config phase succeeds,
forcing the lazy key panics and the loop dies — and it is the only fatal
error: with the variable set, no call panics and the loop is alive after
every number of ticks. -/
theorem claim_C5_key_fatal (env : Env) :
    (∀ name d p a, env.key = none → env.file = some d → env.parseJson d = some p →
       env.parseAddress p.addresses.trappist_service_manager = some a →
       (create_new_task env none name).1 = COutcome.fatal) ∧
    (∀ rngs n name, (run env rngs n).alive = true →
       generate_random_name (rngs n).1 (rngs n).2.1 (rngs n).2.2 = some name →
       (create_new_task env (run env rngs n).cache name).1 = COutcome.fatal →
       (run env rngs (n + 1)).alive = false) ∧
    (∀ k, env.key = some k →
       (∀ cache name, (create_new_task env cache name).1 ≠ COutcome.fatal) ∧
       (∀ rngs n, (run env rngs n).alive = true)) := by
  refine ⟨?_, ?_, ?_⟩
  · intro name d p a hk hf hj ha
    simp [create_new_task, hf, hj, ha, hk]
  · intro rngs n name halive hgen hfat
    obtain ⟨name2, hgen2, _, hts⟩ := tickStep_eq env (run env rngs n).cache (rngs n)
    obtain rfl : name = name2 := by rw [hgen] at hgen2; exact Option.some_inj.mp hgen2
    rw [run_succ_of_alive env rngs n halive, hts]
    simp [hfat]
  · intro k hk
    refine ⟨fun cache name hfat => ?_, fun rngs n => (run_key_alive env k hk rngs n).1⟩
    rw [(cnt_fatal_key env cache name hfat).2] at hk
    cases hk

/-- Witness for C5 in the concrete no-key environment. -/
theorem claim_C5_witness :
    envNoKey.key = none ∧
    (create_new_task envNoKey none "QuickFox0").1 = COutcome.fatal :=
  ⟨rfl, (claim_C5_key_fatal envNoKey).1 "QuickFox0" dataC ⟨⟨ "0xA" ⟩⟩ "0xA" rfl rfl
     (by decide) (by decide)⟩

/-- Counterexample to C2 as stated: in a concrete fully-succeeding run, the
second tick reads the deployment file again — after two ticks the file has
been read twice, so configuration is not resolved exactly once. -/
theorem claim_C2_counterexample :
    readFileCount (run envC rngsC 2).trace = 2 ∧
    ¬ readFileCount (run envC rngsC 2).trace ≤ 1 := by
  exact ⟨by decide, by decide⟩

/-- C2 amended: the signing credential really is resolved at most once —
across any run the `PRIVATE_KEY` environment variable is read at most once,
and the cached value is exactly the value of the variable — but the contract
address is re-read from the deployment file on every tick: after `n` live
ticks the file has been read `n` times. -/
theorem claim_C2_amended (env : Env) (rngs : Nat → Nat × Nat × Nat) (n : Nat) :
    readEnvCount (run env rngs n).trace ≤ 1 ∧
    (∀ k, (run env rngs n).cache = some k → env.key = some k) ∧
    ((run env rngs n).alive = true → readFileCount (run env rngs n).trace = n) :=
  ⟨(run_inv env rngs n).1, (run_inv env rngs n).2.2.1, (run_inv env rngs n).2.2.2⟩

/-- Witness for the amended C2 at the concrete two-tick run. -/
theorem claim_C2_witness :
    readEnvCount (run envC rngsC 2).trace ≤ 1 ∧
    readFileCount (run envC rngsC 2).trace = 2 ∧
    envC.key = some "0xkey" :=
  ⟨(claim_C2_amended envC rngsC 2).1,
   (claim_C2_amended envC rngsC 2).2.2 (by decide),
   (claim_C2_amended envC rngsC 2).2.1 "0xkey" (by decide)⟩

/-- Counterexample to C8 as stated: with a constant random source all three
ticks generate the same name, so after 3 ticks there are 3 generations and
3 submissions but only one distinct `TaskName` value. -/
theorem claim_C8_counterexample :
    genNames (run envC rngsC 3).trace = ["QuickFox0", "QuickFox0", "QuickFox0"] ∧
    invokeNames (run envC rngsC 3).trace = ["QuickFox0", "QuickFox0", "QuickFox0"] ∧
    (genNames (run envC rngsC 3).trace).dedup.length = 1 := by
  exact ⟨by decide, by decide, by decide⟩

/-- C8 amended: with the key set, after 3 elapsed ticks of the 15-second
scheduler exactly 3 `TaskName` values have been generated (one per tick,
not necessarily pairwise distinct) and exactly 3 `create_new_task` calls
have been made, each receiving the generated name, which matches the
adjective-noun-number format. -/
theorem claim_C8_amended (env : Env) (rngs : Nat → Nat × Nat × Nat) (k : String)
    (hk : env.key = some k) :
    tick_interval_secs = 15 ∧
    (genNames (run env rngs 3).trace).length = 3 ∧
    genNames (run env rngs 3).trace = invokeNames (run env rngs 3).trace ∧
    (∀ s ∈ genNames (run env rngs 3).trace, nameFormat s) :=
  ⟨rfl, (run_key_alive env k hk rngs 3).2.2.1, (run_key_alive env k hk rngs 3).2.1,
   (run_key_alive env k hk rngs 3).2.2.2⟩

/-- Witness for the amended C8 at the concrete three-tick run. -/
theorem claim_C8_witness :
    envC.key = some "0xkey" ∧
    (genNames (run envC rngsC 3).trace).length = 3 ∧
    genNames (run envC rngsC 3).trace = invokeNames (run envC rngsC 3).trace :=
  ⟨rfl, (claim_C8_amended envC rngsC "0xkey" rfl).2.1,
   (claim_C8_amended envC rngsC "0xkey" rfl).2.2.1⟩

end SpamTasks
